import Mathlib

/-
Verification of builder/scrape_and_build.mjs, a build script that turns a
list of URLs into a static gallery page.

The JavaScript program is shallowly embedded: JS strings are modelled as
Lean String values (one Char per code point; the inputs of interest live in
the basic multilingual plane, where JS string length agrees with the code
point count).  Network and browser effects (axios fetches, the cheerio
document, puppeteer page queries, the Cloudinary uploader) are modelled as
oracle functions gathered in environment structures; a failed or thrown
effect is the value none.  Each embedded function keeps the name of the
source function it models.
-/

/-- The character class of the JS regex \s and of String.prototype.trim:
ASCII whitespace plus the Unicode space separators and the BOM. -/
def jsWsChars : List Char :=
  [' ', '\t', '\n', '\r', '\x0b', '\x0c', '\u00a0', '\u1680',
   '\u2000', '\u2001', '\u2002', '\u2003', '\u2004', '\u2005', '\u2006',
   '\u2007', '\u2008', '\u2009', '\u200a', '\u2028', '\u2029', '\u202f',
   '\u205f', '\u3000', '\ufeff']

def jsWs (c : Char) : Bool := jsWsChars.contains c

/-- One pass of text.replace(/\s+/g, ` `): every maximal run of whitespace
becomes a single space. -/
def squeezeWsL : List Char → List Char
  | [] => []
  | [c] => if jsWs c then [' '] else [c]
  | c :: d :: rest =>
    if jsWs c && jsWs d then squeezeWsL (d :: rest)
    else (if jsWs c then ' ' else c) :: squeezeWsL (d :: rest)

/-- String.prototype.trim on a character list. -/
def trimL (l : List Char) : List Char :=
  ((l.dropWhile jsWs).reverse.dropWhile jsWs).reverse

/-- s.trim() -/
def jsTrim (s : String) : String := List.asString (trimL s.toList)

/-- s.replace(/\s+/g, ` `) -/
def collapseWs (s : String) : String := List.asString (squeezeWsL s.toList)

/-- JS a || b on strings: the empty string is the only falsy string. -/
def jsOr (a b : String) : String := if a = "" then b else a

/-- slice.lastIndexOf(` `): the index of the last space, none when the JS
call returns -1. -/
def lastSpaceIdx : List Char → Option Nat
  | [] => none
  | c :: rest =>
    match lastSpaceIdx rest with
    | some i => some (i + 1)
    | none => if c = ' ' then some 0 else none

def trailPunct (c : Char) : Bool :=
  c ∈ ['.', ',', ';', ':', '!', '?', '-']

/-- slice.replace(/[.,;:!?-]+$/, empty): strip one trailing run of
punctuation. -/
def stripPunct (l : List Char) : List Char :=
  (l.reverse.dropWhile trailPunct).reverse

/-- function shorten(text, limit = 120) of scrape_and_build.mjs lines 37-46.
Math.max(0, limit - 1) is truncated subtraction on Nat.  Call sites pass the
default limit 120 explicitly. -/
def shorten (text : String) (limit : Nat) : String :=
  if text = "" then ""
  else
    let clean := jsTrim (collapseWs text)
    if clean.length ≤ limit then clean
    else
      let cutoff := limit - 1
      let slice := clean.toList.take cutoff
      let slice2 :=
        match lastSpaceIdx slice with
        | some i => if 60 < i then slice.take i else slice
        | none => slice
      List.asString (stripPunct slice2 ++ ['…'])

lemma asString_length (l : List Char) : (List.asString l).length = l.length := rfl

lemma asString_toList (l : List Char) : (List.asString l).toList = l := rfl

lemma dropWhile_length_le {α : Type} (p : α → Bool) :
    ∀ l : List α, (l.dropWhile p).length ≤ l.length := by
  intro l
  induction l with
  | nil => simp [List.dropWhile]
  | cons a l ih =>
    rw [List.dropWhile]
    cases p a
    · simp
    · simpa using Nat.le_succ_of_le ih

lemma take_length_le {α : Type} (n : Nat) (l : List α) :
    (l.take n).length ≤ n := by
  rw [List.length_take]; exact Nat.min_le_left _ _

lemma take_length_le_self {α : Type} (n : Nat) (l : List α) :
    (l.take n).length ≤ l.length := by
  rw [List.length_take]; exact Nat.min_le_right _ _

lemma stripPunct_length_le (l : List Char) : (stripPunct l).length ≤ l.length := by
  unfold stripPunct
  calc ((l.reverse.dropWhile trailPunct).reverse).length
      = (l.reverse.dropWhile trailPunct).length := by rw [List.length_reverse]
    _ ≤ l.reverse.length := dropWhile_length_le _ _
    _ = l.length := List.length_reverse l

lemma shorten_length_le (s : String) (n : Nat) : (shorten s n).length ≤ n + 1 := by
  by_cases hs : s = ""
  · simp [shorten, hs]
  · rw [shorten, if_neg hs]
    by_cases h : (jsTrim (collapseWs s)).length ≤ n
    · simpa [h] using Nat.le_succ_of_le h
    · simp only [if_neg h]
      set sl := (jsTrim (collapseWs s)).toList.take (n - 1) with hsl
      have hslice : sl.length ≤ n - 1 := by
        rw [hsl]; exact take_length_le _ _
      have hkey : ∀ l2 : List Char, l2.length ≤ n - 1 →
          (List.asString (stripPunct l2 ++ ['…'])).length ≤ n + 1 := by
        intro l2 hl2
        rw [asString_length, List.length_append]
        have := stripPunct_length_le l2
        simp only [List.length_cons, List.length_nil]
        omega
      cases hls : lastSpaceIdx sl with
      | none => exact hkey sl hslice
      | some i =>
        by_cases hi : 60 < i
        · simp only [hi, if_pos]
          exact hkey (sl.take i) (le_trans (take_length_le_self _ _) hslice)
        · simp only [hi, if_neg, ite_false]
          exact hkey sl hslice

lemma shorten_of_norm_le (s : String) (n : Nat)
    (h : (jsTrim (collapseWs s)).length ≤ n) :
    shorten s n = jsTrim (collapseWs s) := by
  by_cases hs : s = ""
  · simp [shorten, hs, jsTrim, collapseWs, trimL, squeezeWsL]
    rfl
  · rw [shorten, if_neg hs, if_pos h]

/-- C3 counterexample: the claim says shorten returns s unchanged whenever
len(s) ≤ n, but the code first collapses whitespace runs, so an input with a
double space is returned changed although its length is under the limit. -/
theorem shorten_not_identity_under_limit :
    ("a  b" : String).length ≤ 120 ∧ shorten "a  b" 120 ≠ "a  b" := by
  constructor
  · decide
  · decide

/-- C3 (amended): shorten(s, n) always returns a string of length ≤ n + 1;
it returns the whitespace-normalized form of s (runs collapsed to single
spaces, edges trimmed) unchanged when that normalized form has length ≤ n —
hence s itself when s is already normalized and len(s) ≤ n — and shorten of
the empty string is the empty string. -/
theorem shorten_contract (s : String) (n : Nat) :
    (shorten s n).length ≤ n + 1
    ∧ ((jsTrim (collapseWs s)).length ≤ n → shorten s n = jsTrim (collapseWs s))
    ∧ (jsTrim (collapseWs s) = s → s.length ≤ n → shorten s n = s)
    ∧ shorten "" n = "" := by
  refine ⟨shorten_length_le s n, shorten_of_norm_le s n, ?_, ?_⟩
  · intro hnorm hlen
    have := shorten_of_norm_le s n (by rw [hnorm]; exact hlen)
    rw [this, hnorm]
  · rw [shorten, if_pos rfl]

/-- A parsed CSV row (csv-parse with columns true): an association list of
column name to cell value.  Object access r[k] on a missing key yields
undefined, which the || chains treat exactly like the empty string. -/
abbrev Row : Type := List (String × String)

def rowGet (r : Row) (k : String) : String := (List.lookup k r).getD ""

/-- The per-row link of parseLinks, line 56:
(r[Link] || r[link] || r[URL] || r[url] || empty).trim() -/
def linkOf (r : Row) : String :=
  jsTrim (jsOr (rowGet r "Link") (jsOr (rowGet r "link")
    (jsOr (rowGet r "URL") (jsOr (rowGet r "url") ""))))

def dedupeFirstAux (seen : List String) : List String → List String
  | [] => []
  | x :: xs =>
    if x ∈ seen then dedupeFirstAux seen xs
    else x :: dedupeFirstAux (x :: seen) xs

/-- Array.from(new Set(links)): a JS Set iterates in insertion order and
keeps the first occurrence of each element. -/
def dedupeFirst (l : List String) : List String := dedupeFirstAux [] l

/-- function parseLinks(csv) of lines 53-60.  The csv-parse call is an
external collaborator; its output rows are the argument here. -/
def parseLinks (rows : List Row) : List String :=
  dedupeFirst ((rows.map linkOf).filter (fun s => s != ""))

lemma dedupeFirstAux_sublist :
    ∀ (l seen : List String), List.Sublist (dedupeFirstAux seen l) l
  | [], _ => List.Sublist.refl _
  | x :: xs, seen => by
    rw [dedupeFirstAux]
    by_cases h : x ∈ seen
    · rw [if_pos h]
      exact (dedupeFirstAux_sublist xs seen).cons x
    · rw [if_neg h]
      exact (dedupeFirstAux_sublist xs (x :: seen)).cons₂ x

lemma mem_dedupeFirstAux :
    ∀ (l seen : List String) (y : String),
      y ∈ dedupeFirstAux seen l ↔ y ∈ l ∧ y ∉ seen
  | [], seen, y => by simp [dedupeFirstAux]
  | x :: xs, seen, y => by
    rw [dedupeFirstAux]
    by_cases h : x ∈ seen
    · rw [if_pos h, mem_dedupeFirstAux xs seen y]
      constructor
      · rintro ⟨hy, hn⟩
        exact ⟨List.mem_cons_of_mem _ hy, hn⟩
      · rintro ⟨hy, hn⟩
        rcases List.mem_cons.mp hy with rfl | hy2
        · exact absurd h hn
        · exact ⟨hy2, hn⟩
    · rw [if_neg h]
      constructor
      · intro hy
        rcases List.mem_cons.mp hy with rfl | hy2
        · exact ⟨List.mem_cons_self _ _, h⟩
        · have h2 := (mem_dedupeFirstAux xs (x :: seen) y).mp hy2
          exact ⟨List.mem_cons_of_mem _ h2.1,
            fun hc => h2.2 (List.mem_cons_of_mem _ hc)⟩
      · rintro ⟨hy, hn⟩
        rcases List.mem_cons.mp hy with rfl | hy2
        · exact List.mem_cons_self _ _
        · by_cases hyx : y = x
          · subst hyx
            exact List.mem_cons_self _ _
          · refine List.mem_cons_of_mem _
              ((mem_dedupeFirstAux xs (x :: seen) y).mpr ⟨hy2, fun hc => ?_⟩)
            rcases List.mem_cons.mp hc with h1 | h1
            · exact hyx h1
            · exact hn h1

lemma nodup_dedupeFirstAux :
    ∀ (l seen : List String), (dedupeFirstAux seen l).Nodup
  | [], _ => List.nodup_nil
  | x :: xs, seen => by
    rw [dedupeFirstAux]
    by_cases h : x ∈ seen
    · rw [if_pos h]
      exact nodup_dedupeFirstAux xs seen
    · rw [if_neg h]
      refine List.nodup_cons.mpr ⟨fun hx => ?_, nodup_dedupeFirstAux xs (x :: seen)⟩
      exact ((mem_dedupeFirstAux xs (x :: seen) x).mp hx).2 (List.mem_cons_self _ _)

/-- C5 counterexample: a row whose link column is named LINK (a case variant
of Link) is not accepted — the code checks only the exact spellings Link,
link, URL, url — so the collection step is not case-insensitive. -/
theorem parseLinks_not_case_insensitive :
    parseLinks [[("LINK", "http://a")]] = []
    ∧ parseLinks [[("Link", "http://a")]] = ["http://a"] := by
  constructor
  · decide
  · decide

/-- C5 (amended): the link-collection step accepts rows whose link column is
named exactly Link, link, URL or url (not arbitrary case variants); it trims
each value, filters out empty values, and deduplicates by exact string match
preserving first-seen order (the result is duplicate-free and an
order-preserving subsequence of the trimmed non-empty values); in particular
input links [A, A, B] yield [A, B]. -/
theorem parseLinks_contract (rows : List Row) (v a b : String)
    (hv : jsTrim v = v) (hv0 : v ≠ "")
    (ha : jsTrim a = a) (ha0 : a ≠ "")
    (hb : jsTrim b = b) (hb0 : b ≠ "") (hab : a ≠ b) :
    (parseLinks rows).Nodup
    ∧ List.Sublist (parseLinks rows) ((rows.map linkOf).filter (fun s => s != ""))
    ∧ linkOf [("Link", v)] = v ∧ linkOf [("link", v)] = v
    ∧ linkOf [("URL", v)] = v ∧ linkOf [("url", v)] = v
    ∧ parseLinks [[("Link", a)], [("Link", a)], [("Link", b)]] = [a, b] := by
  have hLink : ∀ w : String, jsTrim w = w → w ≠ "" →
      linkOf [("Link", w)] = w := by
    intro w hw hw0
    simp [linkOf, rowGet, List.lookup, jsOr, hw0, hw]
  refine ⟨nodup_dedupeFirstAux _ [], dedupeFirstAux_sublist _ [],
    hLink v hv hv0, ?_, ?_, ?_, ?_⟩
  · simp [linkOf, rowGet, List.lookup, jsOr, hv0, hv]
  · simp [linkOf, rowGet, List.lookup, jsOr, hv0, hv]
  · simp [linkOf, rowGet, List.lookup, jsOr, hv0, hv]
  · have haT : (a != "") = true := bne_iff_ne.mpr ha0
    have hbT : (b != "") = true := bne_iff_ne.mpr hb0
    have hfilter :
        List.filter (fun s => s != "") [a, a, b] = [a, a, b] := by
      simp only [List.filter, haT, hbT]
    simp only [parseLinks, List.map, hLink a ha ha0, hLink b hb hb0, hfilter]
    rw [dedupeFirst, dedupeFirstAux, if_neg (List.not_mem_nil a),
      dedupeFirstAux, if_pos (List.mem_singleton.mpr rfl),
      dedupeFirstAux, if_neg ?hb, dedupeFirstAux]
    case hb =>
      intro hc
      exact hab (List.mem_singleton.mp hc).symm

/-- C5 witness: the contract applied at concrete rows and links. -/
theorem parseLinks_contract_witness :
    (parseLinks [] : List String).Nodup
    ∧ linkOf [("URL", "http://x")] = "http://x"
    ∧ parseLinks [[("Link", "http://a")], [("Link", "http://a")],
        [("Link", "http://b")]] = ["http://a", "http://b"] := by
  have h := parseLinks_contract [] "http://x" "http://a" "http://b"
    (by decide) (by decide) (by decide) (by decide) (by decide) (by decide)
    (by decide)
  exact ⟨h.1, h.2.2.2.2.1, h.2.2.2.2.2.2⟩

/-- The extracted fields of one page: title and image may be empty,
signaling absence. -/
structure ExtractedMeta where
  title : String
  description : String
  image : String
deriving DecidableEq, Repr

/-- The fixed fallback sentence used by both extractors. -/
def DEFAULT_DESC : String :=
  "Professional presentation template with modern, editable slides."

/-- The meta value both extractors return when their try block throws. -/
def fallbackMeta : ExtractedMeta := ⟨"", DEFAULT_DESC, ""⟩

def strStartsWith (s p : String) : Bool :=
  s.toList.take p.toList.length == p.toList

def listHasInfix (pat : List Char) : List Char → Bool
  | [] => pat.isEmpty
  | c :: rest => (List.take pat.length (c :: rest) == pat) || listHasInfix pat rest

def containsStr (s pat : String) : Bool := listHasInfix pat.toList s.toList

/-- The regex ^https?:\/\/ -/
def startsHttpUrl (u : String) : Bool :=
  strStartsWith u "http://" || strStartsWith u "https://"

/-- The regex of line 79: wp-content\/uploads|^https?:\/\/ -/
def cheerioImgPred (u : String) : Bool :=
  containsStr u "wp-content/uploads" || startsHttpUrl u

/-- The selector results scrapeWithCheerio reads from the parsed document.
Each field holds the raw value of one selector expression of lines 69-79; a
missing element or attribute yields the empty string, which the || chains
treat exactly as JS treats undefined.  imgSrcs lists src || data-src per img
element, as produced by the map/get of line 79. -/
structure CheerioDoc where
  h1Text : String
  ogTitle : String
  titleText : String
  aboutText : String
  metaDescription : String
  ogDescription : String
  ogImage : String
  imageSrcHref : String
  imgSrcs : List String
deriving DecidableEq, Repr

/-- The axios fetch of line 64: none when the request throws (network
error, timeout, non-2xx), some doc with the parsed document otherwise. -/
structure CheerioEnv where
  fetchHtml : String → Option CheerioDoc

/-- The title resolution chain of lines 69-72. -/
def titleSource (d : CheerioDoc) : String :=
  jsOr (jsTrim d.h1Text) (jsOr d.ogTitle (jsOr (jsTrim d.titleText) ""))

/-- The description resolution chain of lines 73-76: About-section text
(whitespace-collapsed and trimmed), else description meta, else
og:description meta, else empty. -/
def descSource (d : CheerioDoc) : String :=
  jsOr (jsTrim (collapseWs d.aboutText))
    (jsOr d.metaDescription (jsOr d.ogDescription ""))

/-- The image resolution chain of lines 77-80. -/
def imageSource (d : CheerioDoc) : String :=
  jsOr d.ogImage (jsOr d.imageSrcHref
    (jsOr ((d.imgSrcs.find? cheerioImgPred).getD "") ""))

/-- Line 81: a protocol-relative image URL gets the https scheme. -/
def fixProtocol (image : String) : String :=
  if image ≠ "" ∧ strStartsWith image "//" then "https:" ++ image else image

/-- async function scrapeWithCheerio(url) of lines 62-86. -/
def scrapeWithCheerio (env : CheerioEnv) (url : String) : ExtractedMeta :=
  match env.fetchHtml url with
  | none => fallbackMeta
  | some d =>
    ⟨titleSource d,
     shorten (jsOr (descSource d) DEFAULT_DESC) 120,
     fixProtocol (imageSource d)⟩

lemma asString_ne_empty (l : List Char) (h : l ≠ []) : List.asString l ≠ "" := by
  intro hc
  have hlen := congrArg String.length hc
  rw [asString_length] at hlen
  exact h (List.length_eq_zero.mp hlen)

lemma shorten_eq_empty_iff (s : String) (n : Nat) :
    shorten s n = "" ↔ jsTrim (collapseWs s) = "" := by
  by_cases hs : s = ""
  · subst hs
    constructor
    · intro _
      rfl
    · intro _
      rfl
  · rw [shorten, if_neg hs]
    by_cases h : (jsTrim (collapseWs s)).length ≤ n
    · rw [if_pos h]
    · rw [if_neg h]
      constructor
      · intro hc
        exact absurd hc (asString_ne_empty _ (by simp))
      · intro hc
        rw [hc] at h
        exact absurd (Nat.zero_le n) h

/-- C6 counterexample: a page whose description meta content is a single
space (truthy in JS, but whitespace-only) makes the static extractor return
an empty description: shorten normalizes the chosen source to the empty
string and the DEFAULT_DESC fallback does not fire, refuting the claim that
the returned description is non-empty on every path. -/
theorem static_description_can_be_empty :
    (scrapeWithCheerio ⟨fun _ => some ⟨"", "", "", "", " ", "", "", "", []⟩⟩
      "http://x").description = "" := by
  decide

/-- C6 (amended): scrapeWithCheerio never throws: on any fetch or parse
error it returns the fallback meta with title and image empty and
description DEFAULT_DESC.  On the success path the returned description is
empty exactly when the description source chosen by the resolution order is
a non-empty string consisting only of whitespace; in every other case —
including when all sources are empty, where DEFAULT_DESC is substituted —
the description is non-empty. -/
theorem scrapeWithCheerio_contract (env : CheerioEnv) (url : String) :
    (env.fetchHtml url = none → scrapeWithCheerio env url = fallbackMeta)
    ∧ (∀ d, env.fetchHtml url = some d →
        ((scrapeWithCheerio env url).description = "" ↔
          (descSource d ≠ "" ∧ jsTrim (collapseWs (descSource d)) = ""))) := by
  constructor
  · intro h
    rw [scrapeWithCheerio, h]
  · intro d hd
    rw [scrapeWithCheerio, hd]
    show shorten (jsOr (descSource d) DEFAULT_DESC) 120 = "" ↔ _
    rw [shorten_eq_empty_iff]
    by_cases h0 : descSource d = ""
    · rw [jsOr, if_pos h0]
      constructor
      · intro hc
        exact absurd hc (by decide)
      · rintro ⟨h1, _⟩
        exact absurd h0 h1
    · rw [jsOr, if_neg h0]
      constructor
      · intro hc
        exact ⟨h0, hc⟩
      · rintro ⟨_, h2⟩
        exact h2

/-- One puppeteer page interaction, as scrapeWithPuppeteer observes it.
The first five fields are the outcomes of the awaited calls that decide
control flow: newPageOk is browser.newPage resolving (line 89, outside the
try), setUserAgentOk is page.setUserAgent resolving (line 90, also outside
the try), tryOk is the body of the try block of lines 92-128 (navigation,
settle wait, extraction queries) completing without a throw, closeTryOk is
the page.close of line 129 (inside the try) resolving, and closeCatchOk is
the page.close of line 132 (inside the catch) resolving.  The remaining
fields are the values of the individual extraction queries, each of which
already carries its own catch fallback to the empty string in the source.
aboutFound models page.$x finding an About heading, aboutText the raw text
collected by the sibling walk of lines 105-115. -/
structure PupPage where
  newPageOk : Bool
  setUserAgentOk : Bool
  tryOk : Bool
  closeTryOk : Bool
  closeCatchOk : Bool
  h1Text : String
  ogTitle : String
  pageTitle : String
  metaDesc : String
  ogDesc : String
  aboutFound : Bool
  aboutText : String
  ogImage : String
  imgSrcs : List String
deriving DecidableEq, Repr

/-- The image scan of lines 122-126: prefer a wp-content/uploads source,
else the first absolute http(s) source, else empty. -/
def pupImgScan (srcs : List String) : String :=
  jsOr ((srcs.find? (fun u => containsStr u "wp-content/uploads")).getD "")
    (jsOr ((srcs.find? startsHttpUrl).getD "") "")

/-- The description of lines 97-119: description meta, else og:description,
else the About sibling walk (collapsed and trimmed) when an About heading
exists. -/
def pupDescription (p : PupPage) : String :=
  let d0 := jsOr p.metaDesc (jsOr p.ogDesc "")
  if d0 = "" ∧ p.aboutFound then jsTrim (collapseWs p.aboutText) else d0

/-- The meta value built on the success path, line 130. -/
def pupMeta (p : PupPage) : ExtractedMeta :=
  ⟨jsOr p.h1Text (jsOr p.ogTitle p.pageTitle),
   shorten (jsOr (pupDescription p) DEFAULT_DESC) 120,
   fixProtocol (if p.ogImage = "" then pupImgScan p.imgSrcs else p.ogImage)⟩

/-- What one scrapeWithPuppeteer call leaves behind: result is none when
the call itself throws (a rejection outside the catch protection), opened
records whether browser.newPage resolved so a page exists, closed whether
some page.close call resolved before the call ended. -/
structure PupResult where
  result : Option ExtractedMeta
  opened : Bool
  closed : Bool
deriving DecidableEq, Repr

/-- async function scrapeWithPuppeteer(browser, url) of lines 88-135.
browser.newPage (line 89) and page.setUserAgent (line 90) stand before the
try, so a rejection of either propagates out of the function — after
setUserAgent fails the page opened at line 89 is never closed.  The try of
lines 91-130 catches everything the body throws, including a rejection of
the close at line 129; the catch then closes again at line 132 and returns
the fallback meta, but a rejection of that close propagates too. -/
def scrapeWithPuppeteer (p : PupPage) : PupResult :=
  if p.newPageOk then
    if p.setUserAgentOk then
      if p.tryOk then
        if p.closeTryOk then ⟨some (pupMeta p), true, true⟩
        else if p.closeCatchOk then ⟨some fallbackMeta, true, true⟩
        else ⟨none, true, false⟩
      else
        if p.closeCatchOk then ⟨some fallbackMeta, true, true⟩
        else ⟨none, true, false⟩
    else ⟨none, true, false⟩
  else ⟨none, false, false⟩

/-- The meta value a completed scrapeWithPuppeteer call passes back to the
loop of main (line 244).  When the call throws instead, main throws with
it, the run aborts through main().catch, and no item at all is produced —
so the fallback default of this projection never reaches a produced item
and the loop model below describes exactly the completed iterations. -/
def pupMetaOnReturn (p : PupPage) : ExtractedMeta :=
  ((scrapeWithPuppeteer p).result).getD fallbackMeta

/-- A page whose lifecycle calls resolve but whose try block throws. -/
def pageTryFail : PupPage :=
  ⟨true, true, false, true, true, "", "", "", "", "", false, "", "", []⟩

/-- A page on which page.setUserAgent rejects after browser.newPage
resolved: the shared browser has died between the two calls. -/
def pageUAFail : PupPage :=
  ⟨true, false, true, true, true, "", "", "", "", "", false, "", "", []⟩

/-- C4 counterexample: when page.setUserAgent (line 90, outside the try)
rejects, scrapeWithPuppeteer throws instead of returning the fallback meta,
and the page opened at line 89 is never closed. -/
theorem puppeteer_throws_without_closing :
    (scrapeWithPuppeteer pageUAFail).result = none
    ∧ (scrapeWithPuppeteer pageUAFail).opened = true
    ∧ (scrapeWithPuppeteer pageUAFail).closed = false := by
  exact ⟨rfl, rfl, rfl⟩

/-- C4 (amended): provided the three awaited calls outside the catch
protection resolve — browser.newPage and page.setUserAgent before the try,
and page.close itself — scrapeWithPuppeteer never throws: it opens and
closes its page before returning on both the success and the failure path,
the success path returns the extracted meta, and every failure of the try
block (navigation, settle wait, extraction queries) is caught and the
fallback meta with title and image empty and description DEFAULT_DESC
returned.  When newPage or setUserAgent rejects the function throws instead
— in the setUserAgent case leaking the open page — and when every close
attempt rejects it throws as well. -/
theorem scrapeWithPuppeteer_contract (p : PupPage)
    (hnp : p.newPageOk = true) (hua : p.setUserAgentOk = true)
    (hc1 : p.closeTryOk = true) (hc2 : p.closeCatchOk = true) :
    (scrapeWithPuppeteer p).opened = true
    ∧ (scrapeWithPuppeteer p).closed = true
    ∧ (p.tryOk = true → (scrapeWithPuppeteer p).result = some (pupMeta p))
    ∧ (p.tryOk = false → (scrapeWithPuppeteer p).result = some fallbackMeta) := by
  rw [scrapeWithPuppeteer, if_pos hnp, if_pos hua]
  cases ht : p.tryOk
  · rw [if_neg (by simp), if_pos hc2]
    exact ⟨rfl, rfl, fun hc => Bool.noConfusion hc, fun _ => rfl⟩
  · rw [if_pos rfl, if_pos hc1]
    exact ⟨rfl, rfl, fun _ => rfl, fun hc => Bool.noConfusion hc⟩

/-- C4 witness: the amended contract at a concrete page whose lifecycle
calls resolve and whose try block fails. -/
theorem scrapeWithPuppeteer_contract_witness :
    (scrapeWithPuppeteer pageTryFail).opened = true
    ∧ (scrapeWithPuppeteer pageTryFail).closed = true
    ∧ (scrapeWithPuppeteer pageTryFail).result = some fallbackMeta := by
  have h := scrapeWithPuppeteer_contract pageTryFail rfl rfl rfl rfl
  exact ⟨h.1, h.2.1, h.2.2.2 rfl⟩

/-- The Cloudinary and fallback-fetch operations uploadToCloudinary can
perform, recorded in order. -/
inductive CloudOp where
  | remote : String → CloudOp
  | fetchImg : String → CloudOp
  | stream : CloudOp
deriving DecidableEq, Repr

/-- The provider and network effects of uploadToCloudinary:
remoteUpload is cloudinary.uploader.upload on a URL (none when the provider
rejects it), fetchImage the axios arraybuffer download of lines 153-160
(none when it throws), streamUpload the upload_stream call on the downloaded
bytes (none when it reports an error). -/
structure CloudEnv where
  remoteUpload : String → Option String
  fetchImage : String → Option (List Nat)
  streamUpload : List Nat → Option String

/-- async function uploadToCloudinary(imageUrl) of lines 137-174, paired
with the trace of provider operations it performs. -/
def uploadToCloudinary (env : CloudEnv) (imageUrl : String) :
    String × List CloudOp :=
  if imageUrl = "" then ("", [])
  else
    match env.remoteUpload imageUrl with
    | some u => (u, [CloudOp.remote imageUrl])
    | none =>
      match env.fetchImage imageUrl with
      | none => ("", [CloudOp.remote imageUrl, CloudOp.fetchImg imageUrl])
      | some bytes =>
        match env.streamUpload bytes with
        | some u =>
          (u, [CloudOp.remote imageUrl, CloudOp.fetchImg imageUrl, CloudOp.stream])
        | none =>
          ("", [CloudOp.remote imageUrl, CloudOp.fetchImg imageUrl, CloudOp.stream])

/-- C7: uploadToCloudinary returns the empty string on empty input without
touching the provider; it never throws (it is total); its trace never holds
more than one primary upload, one fallback fetch and one stream upload, so
there is no retry beyond the single primary-plus-fallback attempt; and when
the primary upload fails and the fallback fetch or the stream upload also
fails, it returns the empty string. -/
theorem uploadToCloudinary_contract (env : CloudEnv) (url : String) :
    (url = "" → uploadToCloudinary env url = ("", []))
    ∧ (uploadToCloudinary env url).2.count (CloudOp.remote url) ≤ 1
    ∧ (uploadToCloudinary env url).2.count (CloudOp.fetchImg url) ≤ 1
    ∧ (uploadToCloudinary env url).2.count CloudOp.stream ≤ 1
    ∧ (env.remoteUpload url = none → env.fetchImage url = none →
        (uploadToCloudinary env url).1 = "")
    ∧ (∀ bytes, env.remoteUpload url = none → env.fetchImage url = some bytes →
        env.streamUpload bytes = none → (uploadToCloudinary env url).1 = "") := by
  by_cases h0 : url = ""
  · rw [uploadToCloudinary, if_pos h0]
    exact ⟨fun _ => rfl, by simp, by simp, by simp, fun _ _ => rfl,
      fun _ _ _ _ => rfl⟩
  · rw [uploadToCloudinary, if_neg h0]
    cases h1 : env.remoteUpload url with
    | some u =>
      exact ⟨fun hc => absurd hc h0, by simp, by simp, by simp,
        fun h1c _ => Option.noConfusion h1c,
        fun bytes h1c _ _ => Option.noConfusion h1c⟩
    | none =>
      cases h2 : env.fetchImage url with
      | none =>
        exact ⟨fun hc => absurd hc h0, by simp, by simp, by simp,
          fun _ _ => rfl,
          fun bytes _ h2c _ => Option.noConfusion h2c⟩
      | some bytes0 =>
        dsimp only
        cases h3 : env.streamUpload bytes0 with
        | none =>
          exact ⟨fun hc => absurd hc h0, by simp, by simp, by simp,
            fun _ h2c => Option.noConfusion h2c,
            fun bytes _ _ _ => rfl⟩
        | some u =>
          refine ⟨fun hc => absurd hc h0, by simp, by simp, by simp,
            fun _ h2c => Option.noConfusion h2c,
            fun bytes _ h2c h3c => ?_⟩
          have hb : bytes0 = bytes := by injection h2c
          rw [← hb] at h3c
          exact Option.noConfusion (h3.symm.trans h3c)

/-- The effect oracles of one whole run: the static fetch, the puppeteer
page obtained per URL from the one shared browser, the Cloudinary client,
and the CLOUDINARY_CLOUD configuration value. -/
structure Env where
  web : CheerioEnv
  pages : String → PupPage
  cloud : CloudEnv
  cloudName : String

/-- The fixed placeholder image URL of line 250, built against the same
Cloudinary cloud. -/
def placeholderUrl (cloudName : String) : String :=
  "https://res.cloudinary.com/" ++ cloudName ++
    "/image/upload/c_fill,w_1200,h_800,f_auto,q_auto/v1/https://placehold.co/1200x800/jpg"

/-- JS String.prototype.split on a single-character separator. -/
def splitChar (sep : Char) : List Char → List (List Char)
  | [] => [[]]
  | c :: rest =>
    if c = sep then [] :: splitChar sep rest
    else
      match splitChar sep rest with
      | [] => [[c]]
      | g :: gs => (c :: g) :: gs

/-- url.split(`/`).pop().replace(/[-_]/g, ` `) of line 252: split always
returns at least one segment, and pop takes the last one. -/
def deriveTitle (url : String) : String :=
  List.asString (((splitChar '/' url.toList).getLast?.getD []).map
    (fun c => if c = '-' ∨ c = '_' then ' ' else c))

/-- The meta value after the conditional puppeteer fallback of lines
241-245. -/
def metaFinal (env : Env) (url : String) : ExtractedMeta :=
  let meta0 := scrapeWithCheerio env.web url
  if meta0.image = "" then pupMetaOnReturn (env.pages url) else meta0

/-- One item of the final list: title, description, image (final hosted
URL), url. -/
structure GalleryItem where
  title : String
  description : String
  image : String
  url : String
deriving DecidableEq, Repr

def defaultItem : GalleryItem := ⟨"", "", "", ""⟩

/-- One iteration of the per-link loop of main, lines 239-254: the item
pushed for the link, paired with whether the puppeteer fallback was
invoked for it. -/
def processLink (env : Env) (url : String) : GalleryItem × Bool :=
  let meta0 := scrapeWithCheerio env.web url
  let usedPup := decide (meta0.image = "")
  let meta :=
    if meta0.image = "" then pupMetaOnReturn (env.pages url) else meta0
  let img0 := (uploadToCloudinary env.cloud meta.image).1
  let img := if img0 = "" then placeholderUrl env.cloudName else img0
  let title := jsOr meta.title (deriveTitle url)
  (⟨title, meta.description, img, url⟩, usedPup)

/-- The item list main assembles over the deduplicated links, one item per
link, in input order. -/
def runPipeline (env : Env) (links : List String) : List GalleryItem :=
  links.map (fun url => (processLink env url).1)

/-- C1: for every link the orchestrator processes, the rendered extractor
(scrapeWithPuppeteer) runs if and only if the static extractor
(scrapeWithCheerio) returned an empty image field; when the static pass
finds an image, the rendered pass is skipped for that link. -/
theorem puppeteer_iff_static_image_empty (env : Env) (url : String) :
    (processLink env url).2 = true ↔ (scrapeWithCheerio env.web url).image = "" := by
  show decide ((scrapeWithCheerio env.web url).image = "") = true ↔ _
  exact decide_eq_true_iff

lemma processLink_url (env : Env) (url : String) :
    ((processLink env url).1).url = url := rfl

lemma processLink_image (env : Env) (url : String) :
    ((processLink env url).1).image =
      (if (uploadToCloudinary env.cloud (metaFinal env url).image).1 = ""
       then placeholderUrl env.cloudName
       else (uploadToCloudinary env.cloud (metaFinal env url).image).1) := rfl

lemma placeholderUrl_ne_empty (c : String) : placeholderUrl c ≠ "" := by
  intro hc
  have hlen := congrArg String.length hc
  rw [placeholderUrl, String.length_append, String.length_append] at hlen
  have h1 : ("https://res.cloudinary.com/" : String).length = 27 := rfl
  have h2 : ("" : String).length = 0 := rfl
  rw [h1, h2] at hlen
  omega

/-- C2: every GalleryItem of the final list has a non-empty image field: it
equals the URL returned by rehosting when that is non-empty, and otherwise
the fixed placeholder URL built against the same Cloudinary cloud. -/
theorem image_hosted_or_placeholder (env : Env) (links : List String) :
    ∀ it ∈ runPipeline env links,
      it.image ≠ ""
      ∧ (it.image = (uploadToCloudinary env.cloud (metaFinal env it.url).image).1
         ∨ ((uploadToCloudinary env.cloud (metaFinal env it.url).image).1 = ""
            ∧ it.image = placeholderUrl env.cloudName)) := by
  intro it hit
  rcases List.mem_map.mp hit with ⟨url, hurl, heq⟩
  subst heq
  rw [processLink_url, processLink_image]
  by_cases h : (uploadToCloudinary env.cloud (metaFinal env url).image).1 = ""
  · rw [if_pos h]
    exact ⟨placeholderUrl_ne_empty _, Or.inr ⟨h, rfl⟩⟩
  · rw [if_neg h]
    exact ⟨h, Or.inl rfl⟩

/-- A concrete environment for witnesses: the static fetch succeeds on a
document carrying an og:image, the browser page would fail, the remote
upload succeeds. -/
def docW : CheerioDoc :=
  ⟨"Heading", "", "", "", "", "", "http://img.example/x.png", "", []⟩

def pageW : PupPage :=
  ⟨true, true, false, true, true, "", "", "", "", "", false, "", "", []⟩

def cloudW : CloudEnv :=
  ⟨fun _ => some "https://res.cloudinary.com/democloud/image/upload/v1/products/x.jpg",
   fun _ => none, fun _ => none⟩

def envW : Env := ⟨⟨fun _ => some docW⟩, fun _ => pageW, cloudW, "democloud"⟩

/-- C2 witness: the invariant at a concrete environment and item. -/
theorem image_hosted_or_placeholder_witness :
    ((processLink envW "http://a").1).image ≠ ""
    ∧ (((processLink envW "http://a").1).image
        = (uploadToCloudinary envW.cloud
            (metaFinal envW ((processLink envW "http://a").1).url).image).1
       ∨ ((uploadToCloudinary envW.cloud
            (metaFinal envW ((processLink envW "http://a").1).url).image).1 = ""
          ∧ ((processLink envW "http://a").1).image
              = placeholderUrl envW.cloudName)) :=
  image_hosted_or_placeholder envW ["http://a"] (processLink envW "http://a").1
    (List.mem_map_of_mem _ (List.mem_singleton.mpr rfl))

lemma splitChar_ne_nil (sep : Char) : ∀ l : List Char, splitChar sep l ≠ []
  | [] => by simp [splitChar]
  | c :: rest => by
    rw [splitChar]
    by_cases h : c = sep
    · rw [if_pos h]
      simp
    · rw [if_neg h]
      cases hs : splitChar sep rest <;> simp

lemma splitChar_append_sep (sep : Char) :
    ∀ p : List Char, splitChar sep (p ++ [sep]) = splitChar sep p ++ [[]]
  | [] => by simp [splitChar]
  | c :: p => by
    rw [List.cons_append, splitChar]
    by_cases h : c = sep
    · rw [if_pos h, splitChar_append_sep sep p]
      rw [splitChar, if_pos h, List.cons_append]
    · rw [if_neg h, splitChar_append_sep sep p]
      rw [splitChar, if_neg h]
      cases hs : splitChar sep p with
      | nil => exact absurd hs (splitChar_ne_nil sep p)
      | cons g gs =>
        rfl

/-- C10: when the extracted title is empty and the input URL ends with a
slash (empty final path segment), the URL-derived title fallback is the
empty string, so the final GalleryItem title is empty. -/
theorem title_empty_on_trailing_slash (env : Env) (url : String)
    (h1 : (metaFinal env url).title = "")
    (h2 : ∃ p : List Char, url.toList = p ++ ['/']) :
    ((processLink env url).1).title = "" := by
  have htitle : ((processLink env url).1).title
      = jsOr (metaFinal env url).title (deriveTitle url) := rfl
  rcases h2 with ⟨p, hp⟩
  rw [htitle, h1, jsOr, if_pos rfl, deriveTitle, hp, splitChar_append_sep,
    List.getLast?_concat]
  rfl

/-- A concrete document with no title source at all but with an og:image,
so the static extractor alone decides the item. -/
def docT : CheerioDoc :=
  ⟨"", "", "", "", "", "", "http://img.example/x.png", "", []⟩

def envT : Env := ⟨⟨fun _ => some docT⟩, fun _ => pageW, cloudW, "democloud"⟩

/-- C10 witness: a concrete page with empty title sources and a URL ending
in a slash yields an item whose title is empty. -/
theorem title_empty_on_trailing_slash_witness :
    ((processLink envT "http://a/b/").1).title = "" :=
  title_empty_on_trailing_slash envT "http://a/b/" (by decide)
    ⟨("http://a/b" : String).toList, by decide⟩

/-- s.replace(/X/g, r) for a single character X: global replacement. -/
def replaceAllChar (s : String) (c : Char) (r : String) : String :=
  List.asString (List.flatten (s.toList.map (fun x => if x = c then r.toList else [x])))

/-- The CSV escaper of writeArtifacts, line 221: wrap in double quotes and
double every inner double quote. -/
def csvEsc (s : String) : String :=
  "\"" ++ replaceAllChar s '"' "\"\"" ++ "\""

/-- One CSV data row of line 222, as the list of its four escaped fields
Name, Description, Image URL, Download Link. -/
def csvRecord (p : GalleryItem) : List String :=
  [csvEsc p.title, csvEsc p.description, csvEsc p.image, csvEsc p.url]

/-- The tabular export body of products.csv: one record per item, in list
order. -/
def csvRecords (items : List GalleryItem) : List (List String) :=
  items.map csvRecord

/-- The structured dump of line 218: JSON.stringify(items, null, 2)
serializes the very item list, record for record in order; modelled as that
list. -/
def jsonDump (items : List GalleryItem) : List GalleryItem := items

lemma getD_map_of_lt {α β : Type} (f : α → β) (d : α) (e : β) :
    ∀ (l : List α) (i : Nat), i < l.length → (l.map f).getD i e = f (l.getD i d)
  | [], i, h => absurd h (by simp)
  | a :: l, 0, _ => rfl
  | a :: l, i + 1, h => by
    show (List.map f l).getD i e = f (l.getD i d)
    exact getD_map_of_lt f d e l i (Nat.lt_of_succ_lt_succ h)

/-- C8: for a non-empty input link list the pipeline produces exactly one
GalleryItem per link, in input order, and the tabular export and the
structured dump hold the same number of records as the link count, in the
same order, with the fields (titles and descriptions among them) matching
record for record. -/
theorem artifacts_aligned (env : Env) (links : List String) (h0 : links ≠ []) :
    (runPipeline env links).length = links.length
    ∧ (csvRecords (runPipeline env links)).length = links.length
    ∧ (jsonDump (runPipeline env links)).length = links.length
    ∧ (∀ i, i < links.length →
        (runPipeline env links).getD i defaultItem
          = (processLink env (links.getD i "")).1)
    ∧ (∀ i, i < links.length →
        (csvRecords (runPipeline env links)).getD i []
          = csvRecord ((jsonDump (runPipeline env links)).getD i defaultItem)) := by
  have hlen : (runPipeline env links).length = links.length := by
    rw [runPipeline, List.length_map]
  refine ⟨hlen, ?_, ?_, ?_, ?_⟩
  · rw [csvRecords, List.length_map, hlen]
  · rw [jsonDump, hlen]
  · intro i hi
    rw [runPipeline]
    exact getD_map_of_lt _ "" _ links i hi
  · intro i hi
    rw [jsonDump, csvRecords]
    exact getD_map_of_lt csvRecord defaultItem [] (runPipeline env links) i
      (by rw [hlen]; exact hi)

/-- C8 witness: the alignment at one concrete link. -/
theorem artifacts_aligned_witness :
    (runPipeline envW ["http://a"]).length = 1
    ∧ (runPipeline envW ["http://a"]).getD 0 defaultItem
        = (processLink envW "http://a").1
    ∧ (csvRecords (runPipeline envW ["http://a"])).getD 0 []
        = csvRecord ((jsonDump (runPipeline envW ["http://a"])).getD 0 defaultItem) := by
  have h := artifacts_aligned envW ["http://a"] (List.cons_ne_nil _ _)
  exact ⟨h.1, h.2.2.2.1 0 (by decide), h.2.2.2.2 0 (by decide)⟩

/-- The HTML escaper of htmlTemplate, line 201: four chained global
replacements, ampersand first. -/
def htmlEsc (s : String) : String :=
  replaceAllChar (replaceAllChar (replaceAllChar
    (replaceAllChar s '&' "&amp;") '<' "&lt;") '>' "&gt;") '"' "&quot;"

/-- One gallery card of lines 202-211, with every item field passed through
the escaper. -/
def cardHtml (it : GalleryItem) : String :=
  "<article class=\"card\"><div class=\"cover\"><img src=\"" ++ htmlEsc it.image
    ++ "\" alt=\"" ++ htmlEsc it.title ++ " cover\" /></div><div class=\"content\">"
    ++ "<div class=\"title\">" ++ htmlEsc it.title ++ "</div><div class=\"desc\">"
    ++ htmlEsc it.description ++ "</div><div class=\"actions\">"
    ++ "<a class=\"btn\" href=\"" ++ htmlEsc it.url
    ++ "\" target=\"_blank\" rel=\"noopener\">Download for Free</a></div></div></article>"

lemma mem_replaceAllChar {y : Char} {s : String} {c : Char} {r : String}
    (hy : y ∈ (replaceAllChar s c r).toList) :
    y ∈ r.toList ∨ (y ∈ s.toList ∧ y ≠ c) := by
  rw [replaceAllChar, asString_toList] at hy
  rcases List.mem_flatten.mp hy with ⟨piece, hpiece, hyp⟩
  rcases List.mem_map.mp hpiece with ⟨x, hx, hxe⟩
  by_cases hxc : x = c
  · rw [← hxe, if_pos hxc] at hyp
    exact Or.inl hyp
  · rw [← hxe, if_neg hxc] at hyp
    rcases List.mem_singleton.mp hyp with rfl
    exact Or.inr ⟨hx, hxc⟩

set_option maxRecDepth 8192 in
/-- C9: the escaping function leaves no raw angle bracket or double quote in
its output, whatever the field value; a title containing a script tag is
rendered as literal entity text, and the full card built from such a title
does not contain the script tag as a substring. -/
theorem html_escaping_contract (s : String) :
    ((htmlEsc s).toList.all (fun x => x != '<' && x != '>' && x != '"')) = true
    ∧ htmlEsc "<script>" = "&lt;script&gt;"
    ∧ containsStr (cardHtml ⟨"<script>", "", "", ""⟩) "<script>" = false := by
  refine ⟨?_, by decide, by decide⟩
  rw [List.all_eq_true]
  intro x hx
  suffices h : x ≠ '<' ∧ x ≠ '>' ∧ x ≠ '"' by
    simp [bne_iff_ne, h.1, h.2.1, h.2.2]
  rw [htmlEsc] at hx
  rcases mem_replaceAllChar hx with h4 | ⟨hx3, hne4⟩
  · rw [show ("&quot;" : String).toList = ['&', 'q', 'u', 'o', 't', ';'] from rfl] at h4
    fin_cases h4 <;> exact ⟨by decide, by decide, by decide⟩
  · rcases mem_replaceAllChar hx3 with h3 | ⟨hx2, hne3⟩
    · rw [show ("&gt;" : String).toList = ['&', 'g', 't', ';'] from rfl] at h3
      fin_cases h3 <;> exact ⟨by decide, by decide, by decide⟩
    · rcases mem_replaceAllChar hx2 with h2 | ⟨hx1, hne2⟩
      · rw [show ("&lt;" : String).toList = ['&', 'l', 't', ';'] from rfl] at h2
        fin_cases h2 <;> exact ⟨by decide, by decide, by decide⟩
      · exact ⟨hne2, hne3, hne4⟩
